import Mathlib

/-!
# Resume-Scanner hard-match scoring engine: a shallow embedding

This file embeds the rule-based scoring pipeline of `scoring_engine.py`
(skill extraction, education / experience / concept matching, and the
weighted hard-match orchestrator) together with the final-score
combination and verdict banding of `app_advanced.py`, and proves the
specified properties about it.

Modelling conventions:
* Python strings are `List Char` (`Str`); `str.lower()` is ASCII
  lowercasing via `Char.toLower`, and `needle in hay` is the contiguous
  substring test `substrB`.
* Python floats are `ℚ`; the numeric literals appearing in the code
  (`0.7`, `0.4`, `0.45`, ...) are exact decimal fractions, so `ℚ`
  represents them exactly.
* The skills library (a Python dict from canonical skill name to a list
  of variation strings) is an association list `List (Str × List Str)`;
  the classification and found sets (Python `set`) are `Finset Str`.
* The only external-library call inside the pipeline, sklearn's
  `TfidfVectorizer` in `calculate_concept_match_score`, is modelled as
  an explicit input: the feature names paired with their TF-IDF weights
  in the job-description row, or `none` for the `ValueError` path.
-/

namespace ResumeScanner

/-- A Python string, modelled as its list of characters. -/
abbrev Str := List Char

/-- `str.lower()` (ASCII range, which is all the engine's keyword
vocabulary uses). -/
def lowerStr (s : Str) : Str := s.map Char.toLower

/-- `needle in hay` for Python strings: `needle` occurs as a contiguous
substring of `hay`. -/
def substrB (needle : Str) : Str → Bool
  | [] => needle.isEmpty
  | c :: t => needle.isPrefixOf (c :: t) || substrB needle t

/-- The five global trigger phrases of `extract_skills_from_jd`. -/
def triggerPhrases : List Str :=
  [("must have").toList, ("required").toList, ("essential").toList,
   ("proficient in").toList, ("need to have").toList]

/-- `any(phrase in jd_text_lower for phrase in [...])`: some trigger
phrase occurs in the (already lowercased) job-description text. -/
def hasTrigger (jdLower : Str) : Bool :=
  triggerPhrases.any (fun p => substrB p jdLower)

/-- The inner loop `for variation in variations + [skill.lower()]: if
variation in text_lower: ... break` of `extract_skills_from_jd` and
`check_skills_in_resume`: some variation (or the lowercased canonical
name) occurs in the lowercased text. -/
def skillMentioned (textLower : Str) (skill : Str) (variations : List Str) : Bool :=
  (variations ++ [lowerStr skill]).any (fun v => substrB v textLower)

/-- `extract_skills_from_jd(jd_text, skills_library)`: iterate the
catalog in order; a skill whose variation occurs in the lowercased JD
text goes to `must_have_skills` when any trigger phrase occurs anywhere
in the lowercased JD text, else to `good_to_have_skills`. -/
def extract_skills_from_jd (jd_text : Str) (lib : List (Str × List Str)) :
    Finset Str × Finset Str :=
  lib.foldl
    (fun acc kv =>
      if skillMentioned (lowerStr jd_text) kv.1 kv.2 then
        if hasTrigger (lowerStr jd_text) then (insert kv.1 acc.1, acc.2)
        else (acc.1, insert kv.1 acc.2)
      else acc)
    (∅, ∅)

/-- `skills_library[skill]` for an association list (first matching key;
Python dict keys are unique).  For a skill not present, the Python code
would raise `KeyError`; the embedding returns `[]`, a case the pipeline
never reaches since the skills it looks up come from the same library. -/
def lookupVars : List (Str × List Str) → Str → List Str
  | [], _ => []
  | kv :: t, skill => if kv.1 = skill then kv.2 else lookupVars t skill

/-- `check_skills_in_resume(resume_text, must_have, good_to_have,
skills_library)`: each classified skill is found when one of its
variations (or its lowercased name) occurs in the lowercased resume. -/
def check_skills_in_resume (resume_text : Str) (must_have good_to_have : Finset Str)
    (lib : List (Str × List Str)) : Finset Str × Finset Str :=
  (must_have.filter
     (fun s => skillMentioned (lowerStr resume_text) s (lookupVars lib s) = true),
   good_to_have.filter
     (fun s => skillMentioned (lowerStr resume_text) s (lookupVars lib s) = true))

/-- `calculate_skill_score(found_must, found_good, must_have,
good_to_have)`: each ratio defaults to `1.0` when its requirement set is
empty (Python truthiness of the set), and the score is the weighted sum
scaled to 100. -/
def calculate_skill_score (found_must found_good must_have good_to_have : Finset Str) : ℚ :=
  ((if must_have.Nonempty then (found_must.card : ℚ) / (must_have.card : ℚ) else 1) * (7 / 10) +
   (if good_to_have.Nonempty then (found_good.card : ℚ) / (good_to_have.card : ℚ) else 1) *
     (3 / 10)) * 100

/-- The fixed resume-side degree vocabulary of `extract_education`. -/
def educationKeywords : List Str :=
  [("bachelor").toList, ("master").toList, ("phd").toList, ("b.sc").toList,
   ("m.sc").toList, ("b.tech").toList, ("m.tech").toList, ("b.e.").toList,
   ("m.e.").toList, ("degree").toList, ("diploma").toList]

/-- `extract_education(resume_text)`: the degree keywords occurring in
the lowercased resume, in vocabulary order. -/
def extract_education (resume_text : Str) : List Str :=
  educationKeywords.filter (fun k => substrB k (lowerStr resume_text))

/-- The fixed JD-side requirement vocabulary of
`check_education_requirement`. -/
def educationTerms : List Str :=
  [("bachelor").toList, ("master").toList, ("phd").toList, ("diploma").toList,
   ("degree").toList]

/-- `jd_reqs = [term for term in education_terms if term in jd_lower]`,
the requirement terms occurring in the lowercased JD text. -/
def jdEducationReqs (jd_text : Str) : List Str :=
  educationTerms.filter (fun t => substrB t (lowerStr jd_text))

/-- `check_education_requirement(jd_text, resume_education)`: 100 when
the JD states no degree requirement, otherwise 100 exactly when some JD
requirement term is a substring of some extracted resume keyword, else 0. -/
def check_education_requirement (jd_text : Str) (resume_education : List Str) : ℚ :=
  if (jdEducationReqs jd_text).isEmpty then 100
  else if (jdEducationReqs jd_text).any
      (fun req => resume_education.any (fun edu => substrB req edu)) then 100
  else 0

/-- ASCII whitespace, as matched by the regex class `\s`. -/
def isSpaceB (c : Char) : Bool :=
  c = ' ' || c = '\t' || c = '\n' || c = '\r' || c = Char.ofNat 11 || c = Char.ofNat 12

/-- Numeric value of a run of decimal digits (empty run gives 0). -/
def natOfDigits (ds : Str) : Nat := ds.foldl (fun a c => 10 * a + (c.toNat - 48)) 0

/-- Value of the decimal literal captured by the regex group
`(\d+\.?\d*)`: integer part `intPart`, fractional part `fracPart`. -/
def decValue (intPart fracPart : Str) : ℚ :=
  (natOfDigits intPart : ℚ) + (natOfDigits fracPart : ℚ) / (10 : ℚ) ^ fracPart.length

/-- Consume the regex piece `\.?\d*` greedily: split an optional dot
followed by a maximal digit run off the front, returning the digit run
and the rest. -/
def fracSplit : Str → Str × Str
  | '.' :: t => (t.takeWhile Char.isDigit, t.dropWhile Char.isDigit)
  | r => ([], r)

/-- Consume the regex piece `\+?`: an optional plus sign. -/
def plusSplit : Str → Str
  | '+' :: t => t
  | r => r

/-- The position right after `(\d+\.?\d*)\s*\+?\s*` has been consumed
greedily from the start of `s`: where the literal (`years` / `yrs`)
must occur. -/
def matchTail (s : Str) : Str :=
  (plusSplit (((fracSplit (s.dropWhile Char.isDigit)).2).dropWhile isSpaceB)).dropWhile isSpaceB

/-- One attempted match of the regex `(\d+\.?\d*)\s*\+?\s*LIT` at the
start of `s` (greedy, which is how the Python engine resolves this
pattern): a maximal digit run, an optional dot with a maximal digit
run, maximal whitespace, an optional `+`, maximal whitespace, then the
literal `LIT` (`years` or `yrs`).  On success, returns the captured
numeric value and the remaining text after the match. -/
def matchPat (lit : Str) (s : Str) : Option (ℚ × Str) :=
  if (s.takeWhile Char.isDigit).isEmpty then none
  else if lit.isPrefixOf (matchTail s) then
    some (decValue (s.takeWhile Char.isDigit) (fracSplit (s.dropWhile Char.isDigit)).1,
      (matchTail s).drop lit.length)
  else none

/-- Scanning loop of `re.findall`: at each position try a match; on
success record the captured value and resume after the match, otherwise
advance one character.  The fuel starts at the text length, which
suffices because every step consumes at least one character
(`matchPat_rest_length_lt` / `findNumsAux_fuel_irrelevant`). -/
def findNumsAux (lit : Str) : Nat → Str → List ℚ
  | 0, _ => []
  | _ + 1, [] => []
  | fuel + 1, c :: t =>
    match matchPat lit (c :: t) with
    | some vr => vr.1 :: findNumsAux lit fuel vr.2
    | none => findNumsAux lit fuel t

/-- `re.findall(pattern, s)` for the two year-patterns, returning the
captured numeric values in scan order. -/
def findNums (lit s : Str) : List ℚ := findNumsAux lit s.length s

/-- `max(found_years) if found_years else 0`. -/
def maxOr0 : List ℚ → ℚ
  | [] => 0
  | x :: t => t.foldl max x

/-- The literal tail of the first year-pattern. -/
def yearsLit : Str := ("years").toList

/-- The literal tail of the second year-pattern. -/
def yrsLit : Str := ("yrs").toList

/-- `extract_experience(resume_text)`: the maximum numeric match of the
two year-patterns over the lowercased resume, or 0 when none. -/
def extract_experience (resume_text : Str) : ℚ :=
  maxOr0 (findNums yearsLit (lowerStr resume_text) ++ findNums yrsLit (lowerStr resume_text))

/-- The `jd_required_years` accumulation of
`check_experience_requirement`: starting from 0, take the `max` with
every match of both patterns in the lowercased JD text. -/
def requiredYears (jd_text : Str) : ℚ :=
  (findNums yearsLit (lowerStr jd_text) ++ findNums yrsLit (lowerStr jd_text)).foldl max 0

/-- `check_experience_requirement(jd_text, resume_experience_years)`. -/
def check_experience_requirement (jd_text : Str) (resume_experience_years : ℚ) : ℚ :=
  if requiredYears jd_text = 0 then 100
  else if resume_experience_years ≥ requiredYears jd_text then 100
  else max 0 (resume_experience_years / requiredYears jd_text * 100)

/-- Insert one (feature, weight) pair into a list sorted by descending
weight. -/
def insertDesc (x : Str × ℚ) : List (Str × ℚ) → List (Str × ℚ)
  | [] => [x]
  | y :: t => if y.2 ≤ x.2 then x :: y :: t else y :: insertDesc x t

/-- Sort (feature, weight) pairs by descending weight, modelling
`np.argsort(jd_scores)[::-1]` applied to the feature array. -/
def sortDesc (l : List (Str × ℚ)) : List (Str × ℚ) := l.foldr insertDesc []

/-- `important_jd_words`: the feature names whose JD-row TF-IDF weight
exceeds `0.1`, in descending weight order. -/
def importantWords (feats : List (Str × ℚ)) : List Str :=
  ((sortDesc feats).filter (fun p => (1 : ℚ) / 10 < p.2)).map Prod.fst

/-- `calculate_concept_match_score(jd_text, resume_text)`.  The sklearn
`TfidfVectorizer(stop_words='english', max_features=25)` call is an
external library computation; its outcome enters as `vec`: `none`
models the `ValueError` path (empty vocabulary), `some feats` the
feature names paired with their TF-IDF weights in the JD row.  The
code's own logic — keep features with weight above `0.1` in descending
weight order, return 0 when none remain, else the fraction of them
occurring in the lowercased resume, scaled to 100 — is embedded as is. -/
def calculate_concept_match_score (vec : Option (List (Str × ℚ))) (resume_text : Str) : ℚ :=
  match vec with
  | none => 0
  | some feats =>
    if (importantWords feats).isEmpty then 0
    else
      ((((importantWords feats).filter
          (fun w => substrB w (lowerStr resume_text))).length : ℚ) /
        ((importantWords feats).length : ℚ)) * 100

/-- The breakdown dictionary returned by `calculate_hard_match_score`. -/
structure ScoreBreakdown where
  must_have_skills : Finset Str
  good_to_have_skills : Finset Str
  found_must_have : Finset Str
  found_good_to_have : Finset Str
  skill_score : ℚ
  education_score : ℚ
  concept_score : ℚ
  experience_score : ℚ

/-- `calculate_hard_match_score(jd_text, resume_text, skills_library)`:
run the four components and combine them with weights 0.4 / 0.2 / 0.3 /
0.1.  `vec` is the TF-IDF outcome consumed by the concept matcher. -/
def calculate_hard_match_score (jd_text resume_text : Str) (lib : List (Str × List Str))
    (vec : Option (List (Str × ℚ))) : ℚ × ScoreBreakdown :=
  let mg := extract_skills_from_jd jd_text lib
  let fg := check_skills_in_resume resume_text mg.1 mg.2 lib
  let skillScore := calculate_skill_score fg.1 fg.2 mg.1 mg.2
  let educationScore := check_education_requirement jd_text (extract_education resume_text)
  let conceptScore := calculate_concept_match_score vec resume_text
  let expScore := check_experience_requirement jd_text (extract_experience resume_text)
  let hardScore :=
    skillScore * (4 / 10) + educationScore * (2 / 10) + conceptScore * (3 / 10) +
      expScore * (1 / 10)
  (hardScore,
   { must_have_skills := mg.1, good_to_have_skills := mg.2,
     found_must_have := fg.1, found_good_to_have := fg.2,
     skill_score := skillScore, education_score := educationScore,
     concept_score := conceptScore, experience_score := expScore })

/-- `final_score = (hard_score * 0.45) + (semantic_score * 0.55)` from
`app_advanced.py`. -/
def final_score (hard_score semantic_score : ℚ) : ℚ :=
  hard_score * (45 / 100) + semantic_score * (55 / 100)

/-- The verdict labels of `app_advanced.py`. -/
inductive Verdict where
  | highFit
  | mediumFit
  | lowFit
deriving DecidableEq

/-- `'HIGH FIT' if final_score >= 70 else 'MEDIUM FIT' if final_score >=
40 else 'LOW FIT'`. -/
def verdict (fs : ℚ) : Verdict :=
  if fs ≥ 70 then .highFit else if fs ≥ 40 then .mediumFit else .lowFit

/-! ## Concrete inputs used by the spec's scenarios -/

/-- The catalog of the spec's concrete skill scenario. -/
def libC3 : List (Str × List Str) :=
  [((("Python").toList), [("python").toList]), ((("SQL").toList), [("sql").toList])]

/-- The job description of the spec's concrete skill scenario. -/
def jdC3 : Str := ("Must have Python. Good to have SQL.").toList

/-- The resume of the spec's concrete skill scenario. -/
def resC3 : Str := ("I have 3 years of Python experience.").toList

unseal Rat.add Rat.mul Rat.inv

/-! ## Helper lemmas -/

lemma foldl_max_le_init (l : List ℚ) (b : ℚ) : b ≤ l.foldl max b := by
  induction l generalizing b with
  | nil => simp
  | cons x t ih => exact le_trans (le_max_left b x) (ih (max b x))

lemma foldl_max_eq_maxOr0 (l : List ℚ) (h : ∀ v ∈ l, 0 ≤ v) :
    l.foldl max 0 = maxOr0 l := by
  cases l with
  | nil => rfl
  | cons x t =>
    show t.foldl max (max 0 x) = t.foldl max x
    rw [max_eq_right (h x (by simp))]

lemma maxOr0_nonneg (l : List ℚ) (h : ∀ v ∈ l, 0 ≤ v) : 0 ≤ maxOr0 l := by
  cases l with
  | nil => exact le_refl 0
  | cons x t => exact le_trans (h x (by simp)) (foldl_max_le_init t x)

lemma decValue_nonneg (a b : Str) : 0 ≤ decValue a b := by
  unfold decValue
  positivity

lemma matchPat_val_nonneg (lit s : Str) (p : ℚ × Str) (h : matchPat lit s = some p) :
    0 ≤ p.1 := by
  unfold matchPat at h
  split at h
  · exact absurd h (by simp)
  · split at h
    · rw [Option.some_inj] at h
      rw [← h]
      exact decValue_nonneg _ _
    · exact absurd h (by simp)

lemma dropWhile_length_le_self (p : Char → Bool) (l : Str) :
    (l.dropWhile p).length ≤ l.length := by
  conv_rhs => rw [← List.takeWhile_append_dropWhile p l]
  rw [List.length_append]
  omega

lemma dropWhile_length_lt_of_head (p : Char → Bool) (l : Str)
    (h : (l.takeWhile p).isEmpty = false) : (l.dropWhile p).length < l.length := by
  have hlen : (l.takeWhile p).length + (l.dropWhile p).length = l.length := by
    rw [← List.length_append, List.takeWhile_append_dropWhile]
  have hpos : 0 < (l.takeWhile p).length := by
    cases hk : l.takeWhile p with
    | nil => rw [hk] at h; simp at h
    | cons a t => simp [hk]
  omega

lemma fracSplit_snd_length (r : Str) : ((fracSplit r).2).length ≤ r.length := by
  unfold fracSplit
  split
  · rename_i t
    calc (t.dropWhile Char.isDigit).length ≤ t.length := dropWhile_length_le_self _ _
      _ ≤ t.length + 1 := by omega
  · exact le_refl _

lemma plusSplit_length (r : Str) : (plusSplit r).length ≤ r.length := by
  unfold plusSplit
  split
  · simp
  · exact le_refl _

lemma matchTail_length (s : Str) : (matchTail s).length ≤ (s.dropWhile Char.isDigit).length := by
  unfold matchTail
  calc ((plusSplit (((fracSplit (s.dropWhile Char.isDigit)).2).dropWhile isSpaceB)).dropWhile
        isSpaceB).length
      ≤ (plusSplit (((fracSplit (s.dropWhile Char.isDigit)).2).dropWhile isSpaceB)).length :=
        dropWhile_length_le_self _ _
    _ ≤ (((fracSplit (s.dropWhile Char.isDigit)).2).dropWhile isSpaceB).length :=
        plusSplit_length _
    _ ≤ ((fracSplit (s.dropWhile Char.isDigit)).2).length := dropWhile_length_le_self _ _
    _ ≤ (s.dropWhile Char.isDigit).length := fracSplit_snd_length _

lemma matchPat_rest_length_lt (lit s : Str) (p : ℚ × Str) (h : matchPat lit s = some p) :
    p.2.length < s.length := by
  unfold matchPat at h
  split at h
  · exact absurd h (by simp)
  · rename_i hd1
    split at h
    · rw [Option.some_inj] at h
      have hr1 : (s.dropWhile Char.isDigit).length < s.length :=
        dropWhile_length_lt_of_head Char.isDigit s (by
          revert hd1
          cases s.takeWhile Char.isDigit <;> simp)
      have h2 : p.2.length ≤ (matchTail s).length := by
        rw [← h]
        simp only [List.length_drop]
        omega
      have h3 := matchTail_length s
      omega
    · exact absurd h (by simp)

lemma findNumsAux_fuel_eq (lit : Str) :
    ∀ f₁ f₂ s, s.length ≤ f₁ → s.length ≤ f₂ →
      findNumsAux lit f₁ s = findNumsAux lit f₂ s := by
  intro f₁
  induction f₁ with
  | zero =>
    intro f₂ s h1 _
    have : s = [] := List.eq_nil_of_length_eq_zero (by omega)
    subst this
    cases f₂ <;> rfl
  | succ f ih =>
    intro f₂ s h1 h2
    cases s with
    | nil => cases f₂ <;> rfl
    | cons c t =>
      have hlen : (c :: t).length = t.length + 1 := by simp
      cases f₂ with
      | zero => omega
      | succ f' =>
        cases hm : matchPat lit (c :: t) with
        | none =>
          simp only [findNumsAux, hm]
          exact ih f' t (by omega) (by omega)
        | some vr =>
          have hlt := matchPat_rest_length_lt lit (c :: t) vr hm
          simp only [findNumsAux, hm]
          rw [ih f' vr.2 (by omega) (by omega)]

lemma findNumsAux_nonneg (lit : Str) :
    ∀ fuel s, ∀ v ∈ findNumsAux lit fuel s, 0 ≤ v := by
  intro fuel
  induction fuel with
  | zero => intro s v hv; simp [findNumsAux] at hv
  | succ f ih =>
    intro s v hv
    cases s with
    | nil => simp [findNumsAux] at hv
    | cons c t =>
      cases hm : matchPat lit (c :: t) with
      | none =>
        simp only [findNumsAux, hm] at hv
        exact ih t v hv
      | some vr =>
        simp only [findNumsAux, hm] at hv
        rcases List.mem_cons.mp hv with h | h
        · rw [h]; exact matchPat_val_nonneg lit (c :: t) vr hm
        · exact ih vr.2 v h

lemma findNums_nonneg (lit s : Str) : ∀ v ∈ findNums lit s, 0 ≤ v :=
  findNumsAux_nonneg lit s.length s

lemma extract_foldl_mem (jdLower : Str) (lib : List (Str × List Str)) (x : Str) :
    ∀ acc : Finset Str × Finset Str,
    (x ∈ (lib.foldl (fun a kv =>
        if skillMentioned jdLower kv.1 kv.2 then
          if hasTrigger jdLower then (insert kv.1 a.1, a.2)
          else (a.1, insert kv.1 a.2)
        else a) acc).1 ↔
      x ∈ acc.1 ∨ (hasTrigger jdLower = true ∧
        ∃ kv ∈ lib, x = kv.1 ∧ skillMentioned jdLower kv.1 kv.2 = true)) ∧
    (x ∈ (lib.foldl (fun a kv =>
        if skillMentioned jdLower kv.1 kv.2 then
          if hasTrigger jdLower then (insert kv.1 a.1, a.2)
          else (a.1, insert kv.1 a.2)
        else a) acc).2 ↔
      x ∈ acc.2 ∨ (hasTrigger jdLower = false ∧
        ∃ kv ∈ lib, x = kv.1 ∧ skillMentioned jdLower kv.1 kv.2 = true)) := by
  induction lib with
  | nil => intro acc; simp
  | cons kv t ih =>
    intro acc
    simp only [List.foldl_cons, List.exists_mem_cons_iff]
    refine ⟨?_, ?_⟩
    · rw [(ih _).1]
      by_cases hm : skillMentioned jdLower kv.1 kv.2 = true
      · by_cases ht : hasTrigger jdLower = true
        · simp only [hm, ht, if_true, Finset.mem_insert]
          tauto
        · have ht' : hasTrigger jdLower = false := by
            revert ht; cases hasTrigger jdLower <;> simp
          simp [hm, ht']
          try tauto
      · simp [hm]
        try tauto
    · rw [(ih _).2]
      by_cases hm : skillMentioned jdLower kv.1 kv.2 = true
      · by_cases ht : hasTrigger jdLower = true
        · simp [hm, ht]
          try tauto
        · have ht' : hasTrigger jdLower = false := by
            revert ht; cases hasTrigger jdLower <;> simp
          simp [hm, ht', Finset.mem_insert]
          try tauto
      · simp [hm]
        try tauto

lemma mem_extract_must (jd : Str) (lib : List (Str × List Str)) (x : Str) :
    x ∈ (extract_skills_from_jd jd lib).1 ↔
      hasTrigger (lowerStr jd) = true ∧
        ∃ kv ∈ lib, x = kv.1 ∧ skillMentioned (lowerStr jd) kv.1 kv.2 = true := by
  have h := (extract_foldl_mem (lowerStr jd) lib x (∅, ∅)).1
  rw [show (extract_skills_from_jd jd lib) = lib.foldl (fun a kv =>
      if skillMentioned (lowerStr jd) kv.1 kv.2 then
        if hasTrigger (lowerStr jd) then (insert kv.1 a.1, a.2)
        else (a.1, insert kv.1 a.2)
      else a) (∅, ∅) from rfl]
  rw [h]
  simp

lemma mem_extract_good (jd : Str) (lib : List (Str × List Str)) (x : Str) :
    x ∈ (extract_skills_from_jd jd lib).2 ↔
      hasTrigger (lowerStr jd) = false ∧
        ∃ kv ∈ lib, x = kv.1 ∧ skillMentioned (lowerStr jd) kv.1 kv.2 = true := by
  have h := (extract_foldl_mem (lowerStr jd) lib x (∅, ∅)).2
  rw [show (extract_skills_from_jd jd lib) = lib.foldl (fun a kv =>
      if skillMentioned (lowerStr jd) kv.1 kv.2 then
        if hasTrigger (lowerStr jd) then (insert kv.1 a.1, a.2)
        else (a.1, insert kv.1 a.2)
      else a) (∅, ∅) from rfl]
  rw [h]
  simp

lemma ratio_bounds (a b : Finset Str) (hab : a ⊆ b) :
    0 ≤ (if b.Nonempty then (a.card : ℚ) / (b.card : ℚ) else 1) ∧
    (if b.Nonempty then (a.card : ℚ) / (b.card : ℚ) else 1) ≤ 1 := by
  by_cases hb : b.Nonempty
  · have hpos : (0 : ℚ) < b.card := by exact_mod_cast Finset.card_pos.mpr hb
    constructor
    · simp only [hb, if_true]
      positivity
    · simp only [hb, if_true]
      rw [div_le_one hpos]
      exact_mod_cast Finset.card_le_card hab
  · simp [hb]

lemma calculate_skill_score_bounds (fm fg mh gh : Finset Str)
    (h1 : fm ⊆ mh) (h2 : fg ⊆ gh) :
    0 ≤ calculate_skill_score fm fg mh gh ∧ calculate_skill_score fm fg mh gh ≤ 100 := by
  obtain ⟨ha1, ha2⟩ := ratio_bounds fm mh h1
  obtain ⟨hb1, hb2⟩ := ratio_bounds fg gh h2
  unfold calculate_skill_score
  constructor <;> nlinarith

lemma check_skills_subset (resume : Str) (mh gh : Finset Str) (lib : List (Str × List Str)) :
    (check_skills_in_resume resume mh gh lib).1 ⊆ mh ∧
    (check_skills_in_resume resume mh gh lib).2 ⊆ gh :=
  ⟨Finset.filter_subset _ _, Finset.filter_subset _ _⟩

lemma concept_score_bounds (vec : Option (List (Str × ℚ))) (resume : Str) :
    0 ≤ calculate_concept_match_score vec resume ∧
      calculate_concept_match_score vec resume ≤ 100 := by
  cases vec with
  | none =>
    constructor <;> norm_num [calculate_concept_match_score]
  | some feats =>
    by_cases he : (importantWords feats).isEmpty = true
    · constructor <;> simp [calculate_concept_match_score, he]
    · have hne : importantWords feats ≠ [] := by
        revert he; cases importantWords feats <;> simp
      have hpos : (0 : ℚ) < (importantWords feats).length := by
        exact_mod_cast List.length_pos.mpr hne
      have hle : (((importantWords feats).filter
          (fun w => substrB w (lowerStr resume))).length : ℚ) ≤
          ((importantWords feats).length : ℚ) := by
        exact_mod_cast List.length_filter_le _ _
      have hdiv1 : (((importantWords feats).filter
          (fun w => substrB w (lowerStr resume))).length : ℚ) /
          ((importantWords feats).length : ℚ) ≤ 1 := by
        rw [div_le_one hpos]
        exact hle
      have hdiv0 : 0 ≤ (((importantWords feats).filter
          (fun w => substrB w (lowerStr resume))).length : ℚ) /
          ((importantWords feats).length : ℚ) := by positivity
      constructor <;> simp only [calculate_concept_match_score, he, Bool.false_eq_true,
        if_false] <;> nlinarith

lemma check_education_eq_or (jd : Str) (edu : List Str) :
    check_education_requirement jd edu = 0 ∨ check_education_requirement jd edu = 100 := by
  unfold check_education_requirement
  split
  · right; rfl
  · split
    · right; rfl
    · left; rfl

lemma requiredYears_nonneg (jd : Str) : 0 ≤ requiredYears jd :=
  foldl_max_le_init _ 0

lemma extract_experience_nonneg (resume : Str) : 0 ≤ extract_experience resume := by
  unfold extract_experience
  apply maxOr0_nonneg
  intro v hv
  rcases List.mem_append.mp hv with h | h
  · exact findNums_nonneg _ _ v h
  · exact findNums_nonneg _ _ v h

lemma check_exp_bounds (jd : Str) (ry : ℚ) (h : 0 ≤ ry) :
    0 ≤ check_experience_requirement jd ry ∧ check_experience_requirement jd ry ≤ 100 := by
  unfold check_experience_requirement
  split
  · norm_num
  · split
    · norm_num
    · rename_i hne hge
      have hpos : 0 < requiredYears jd :=
        lt_of_le_of_ne (requiredYears_nonneg jd) (Ne.symm hne)
      have hlt : ry < requiredYears jd := lt_of_not_ge hge
      have hdiv : ry / requiredYears jd < 1 := by
        rw [div_lt_one hpos]
        exact hlt
      constructor
      · exact le_max_left 0 _
      · have h100 : ry / requiredYears jd * 100 < 100 := by nlinarith
        exact max_le (by norm_num) (le_of_lt h100)

/-! ## Claim theorems -/

/-- C1: for every catalog, job-description text, resume text (and
TF-IDF outcome), `calculate_hard_match_score` returns a hard score
equal to `skillScore*0.4 + educationScore*0.2 + conceptScore*0.3 +
experienceScore*0.1`, where the four sub-scores are those computed by
the skill, education, concept and experience components on the same
inputs, and the breakdown carries exactly those four sub-scores
together with the `mustHave`, `goodToHave`, `foundMustHave` and
`foundGoodToHave` sets. -/
theorem hard_match_formula (jd resume : Str) (lib : List (Str × List Str))
    (vec : Option (List (Str × ℚ))) :
    (calculate_hard_match_score jd resume lib vec).1 =
      (calculate_hard_match_score jd resume lib vec).2.skill_score * (4 / 10) +
      (calculate_hard_match_score jd resume lib vec).2.education_score * (2 / 10) +
      (calculate_hard_match_score jd resume lib vec).2.concept_score * (3 / 10) +
      (calculate_hard_match_score jd resume lib vec).2.experience_score * (1 / 10) ∧
    (calculate_hard_match_score jd resume lib vec).2.skill_score =
      calculate_skill_score
        (check_skills_in_resume resume (extract_skills_from_jd jd lib).1
          (extract_skills_from_jd jd lib).2 lib).1
        (check_skills_in_resume resume (extract_skills_from_jd jd lib).1
          (extract_skills_from_jd jd lib).2 lib).2
        (extract_skills_from_jd jd lib).1 (extract_skills_from_jd jd lib).2 ∧
    (calculate_hard_match_score jd resume lib vec).2.education_score =
      check_education_requirement jd (extract_education resume) ∧
    (calculate_hard_match_score jd resume lib vec).2.concept_score =
      calculate_concept_match_score vec resume ∧
    (calculate_hard_match_score jd resume lib vec).2.experience_score =
      check_experience_requirement jd (extract_experience resume) ∧
    (calculate_hard_match_score jd resume lib vec).2.must_have_skills =
      (extract_skills_from_jd jd lib).1 ∧
    (calculate_hard_match_score jd resume lib vec).2.good_to_have_skills =
      (extract_skills_from_jd jd lib).2 ∧
    (calculate_hard_match_score jd resume lib vec).2.found_must_have =
      (check_skills_in_resume resume (extract_skills_from_jd jd lib).1
        (extract_skills_from_jd jd lib).2 lib).1 ∧
    (calculate_hard_match_score jd resume lib vec).2.found_good_to_have =
      (check_skills_in_resume resume (extract_skills_from_jd jd lib).1
        (extract_skills_from_jd jd lib).2 lib).2 :=
  ⟨rfl, rfl, rfl, rfl, rfl, rfl, rfl, rfl, rfl⟩

/-- C2: for every catalog and job-description text,
`extract_skills_from_jd` classifies each skill whose variation (or
lowercased canonical name) occurs in the lowercased job-description
text into `mustHave` exactly when any of the five trigger phrases
occurs anywhere in the lowercased job-description text, and into
`goodToHave` otherwise; in particular, when a trigger phrase occurs,
every detected skill lands in `mustHave` and `goodToHave` is empty. -/
theorem extract_skills_classification (jd : Str) (lib : List (Str × List Str)) (x : Str) :
    (x ∈ (extract_skills_from_jd jd lib).1 ↔
      hasTrigger (lowerStr jd) = true ∧
        ∃ kv ∈ lib, x = kv.1 ∧ skillMentioned (lowerStr jd) kv.1 kv.2 = true) ∧
    (x ∈ (extract_skills_from_jd jd lib).2 ↔
      hasTrigger (lowerStr jd) = false ∧
        ∃ kv ∈ lib, x = kv.1 ∧ skillMentioned (lowerStr jd) kv.1 kv.2 = true) ∧
    (hasTrigger (lowerStr jd) = true → (extract_skills_from_jd jd lib).2 = ∅) := by
  refine ⟨mem_extract_must jd lib x, mem_extract_good jd lib x, ?_⟩
  intro ht
  apply Finset.eq_empty_iff_forall_not_mem.mpr
  intro y hy
  rw [mem_extract_good] at hy
  rw [ht] at hy
  exact absurd hy.1 (by simp)

/-- Witness for C2 at the concrete scenario inputs: the job description
contains the trigger phrase "must have", so `goodToHave` is empty. -/
theorem extract_skills_classification_witness :
    (extract_skills_from_jd jdC3 libC3).2 = ∅ :=
  (extract_skills_classification jdC3 libC3 ([] : Str)).2.2 (by decide)

/-- C3 counterexample: on the spec's concrete scenario the global
trigger phrase "must have" pushes SQL into `mustHave` as well, so the
claimed outcome `mustHave = {Python}`, `goodToHave = {SQL}`,
`skillScore = 70` is false. -/
theorem skill_scenario_counterexample :
    ("SQL").toList ∈ (extract_skills_from_jd jdC3 libC3).1 ∧
    ¬((extract_skills_from_jd jdC3 libC3).1 = {("Python").toList} ∧
      (extract_skills_from_jd jdC3 libC3).2 = {("SQL").toList} ∧
      (check_skills_in_resume resC3 (extract_skills_from_jd jdC3 libC3).1
        (extract_skills_from_jd jdC3 libC3).2 libC3).1 = {("Python").toList} ∧
      (check_skills_in_resume resC3 (extract_skills_from_jd jdC3 libC3).1
        (extract_skills_from_jd jdC3 libC3).2 libC3).2 = ∅ ∧
      calculate_skill_score
        (check_skills_in_resume resC3 (extract_skills_from_jd jdC3 libC3).1
          (extract_skills_from_jd jdC3 libC3).2 libC3).1
        (check_skills_in_resume resC3 (extract_skills_from_jd jdC3 libC3).1
          (extract_skills_from_jd jdC3 libC3).2 libC3).2
        (extract_skills_from_jd jdC3 libC3).1 (extract_skills_from_jd jdC3 libC3).2 = 70) := by
  decide

/-- C3 (amended): on the concrete scenario the pipeline actually yields
`mustHave = {Python, SQL}`, `goodToHave = ∅`,
`foundMustHave = {Python}`, `foundGoodToHave = ∅` and
`skillScore = (1/2*0.7 + 1*0.3)*100 = 65`. -/
theorem skill_scenario_actual :
    (extract_skills_from_jd jdC3 libC3).1 = {("Python").toList, ("SQL").toList} ∧
    (extract_skills_from_jd jdC3 libC3).2 = ∅ ∧
    (check_skills_in_resume resC3 (extract_skills_from_jd jdC3 libC3).1
      (extract_skills_from_jd jdC3 libC3).2 libC3).1 = {("Python").toList} ∧
    (check_skills_in_resume resC3 (extract_skills_from_jd jdC3 libC3).1
      (extract_skills_from_jd jdC3 libC3).2 libC3).2 = ∅ ∧
    calculate_skill_score
      (check_skills_in_resume resC3 (extract_skills_from_jd jdC3 libC3).1
        (extract_skills_from_jd jdC3 libC3).2 libC3).1
      (check_skills_in_resume resC3 (extract_skills_from_jd jdC3 libC3).1
        (extract_skills_from_jd jdC3 libC3).2 libC3).2
      (extract_skills_from_jd jdC3 libC3).1 (extract_skills_from_jd jdC3 libC3).2 = 65 := by
  decide

/-- C4: `calculate_skill_score` returns
`(mustRatio * 0.7 + goodRatio * 0.3) * 100` with each ratio defined as
`|found| / |required|` and as `1.0` when the requirement set is empty;
in particular, with an empty skill catalog both classification sets are
empty and the skill score is 100. -/
theorem skill_score_formula (fm fg mh gh : Finset Str) (jd resume : Str) :
    calculate_skill_score fm fg mh gh =
      ((if mh = ∅ then (1 : ℚ) else (fm.card : ℚ) / (mh.card : ℚ)) * (7 / 10) +
       (if gh = ∅ then (1 : ℚ) else (fg.card : ℚ) / (gh.card : ℚ)) * (3 / 10)) * 100 ∧
    extract_skills_from_jd jd [] = (∅, ∅) ∧
    calculate_skill_score
      (check_skills_in_resume resume (extract_skills_from_jd jd []).1
        (extract_skills_from_jd jd []).2 []).1
      (check_skills_in_resume resume (extract_skills_from_jd jd []).1
        (extract_skills_from_jd jd []).2 []).2
      (extract_skills_from_jd jd []).1 (extract_skills_from_jd jd []).2 = 100 := by
  refine ⟨?_, rfl, ?_⟩
  · unfold calculate_skill_score
    by_cases h1 : mh = ∅ <;> by_cases h2 : gh = ∅ <;>
      simp [h1, h2, Finset.nonempty_iff_ne_empty]
  · have h : extract_skills_from_jd jd [] = ((∅ : Finset Str), (∅ : Finset Str)) := rfl
    rw [h]
    simp only [check_skills_in_resume, Finset.filter_empty]
    norm_num [calculate_skill_score, Finset.not_nonempty_empty]

/-- C5: for every catalog, job-description text, resume text (and
TF-IDF outcome), the hard score and all four sub-scores returned by
`calculate_hard_match_score` lie in [0, 100]. -/
theorem hard_match_bounds (jd resume : Str) (lib : List (Str × List Str))
    (vec : Option (List (Str × ℚ))) :
    0 ≤ (calculate_hard_match_score jd resume lib vec).1 ∧
    (calculate_hard_match_score jd resume lib vec).1 ≤ 100 ∧
    0 ≤ (calculate_hard_match_score jd resume lib vec).2.skill_score ∧
    (calculate_hard_match_score jd resume lib vec).2.skill_score ≤ 100 ∧
    0 ≤ (calculate_hard_match_score jd resume lib vec).2.education_score ∧
    (calculate_hard_match_score jd resume lib vec).2.education_score ≤ 100 ∧
    0 ≤ (calculate_hard_match_score jd resume lib vec).2.concept_score ∧
    (calculate_hard_match_score jd resume lib vec).2.concept_score ≤ 100 ∧
    0 ≤ (calculate_hard_match_score jd resume lib vec).2.experience_score ∧
    (calculate_hard_match_score jd resume lib vec).2.experience_score ≤ 100 := by
  obtain ⟨hsub1, hsub2⟩ := check_skills_subset resume (extract_skills_from_jd jd lib).1
    (extract_skills_from_jd jd lib).2 lib
  obtain ⟨hs0, hs1⟩ := calculate_skill_score_bounds _ _ _ _ hsub1 hsub2
  obtain ⟨hc0, hc1⟩ := concept_score_bounds vec resume
  have he0 : 0 ≤ check_education_requirement jd (extract_education resume) := by
    rcases check_education_eq_or jd (extract_education resume) with h | h <;> rw [h] <;>
      norm_num
  have he1 : check_education_requirement jd (extract_education resume) ≤ 100 := by
    rcases check_education_eq_or jd (extract_education resume) with h | h <;> rw [h] <;>
      norm_num
  obtain ⟨hx0, hx1⟩ := check_exp_bounds jd (extract_experience resume)
    (extract_experience_nonneg resume)
  have hs : (calculate_hard_match_score jd resume lib vec).2.skill_score =
      calculate_skill_score
        (check_skills_in_resume resume (extract_skills_from_jd jd lib).1
          (extract_skills_from_jd jd lib).2 lib).1
        (check_skills_in_resume resume (extract_skills_from_jd jd lib).1
          (extract_skills_from_jd jd lib).2 lib).2
        (extract_skills_from_jd jd lib).1 (extract_skills_from_jd jd lib).2 := rfl
  have he : (calculate_hard_match_score jd resume lib vec).2.education_score =
      check_education_requirement jd (extract_education resume) := rfl
  have hc : (calculate_hard_match_score jd resume lib vec).2.concept_score =
      calculate_concept_match_score vec resume := rfl
  have hx : (calculate_hard_match_score jd resume lib vec).2.experience_score =
      check_experience_requirement jd (extract_experience resume) := rfl
  have hh : (calculate_hard_match_score jd resume lib vec).1 =
      (calculate_hard_match_score jd resume lib vec).2.skill_score * (4 / 10) +
      (calculate_hard_match_score jd resume lib vec).2.education_score * (2 / 10) +
      (calculate_hard_match_score jd resume lib vec).2.concept_score * (3 / 10) +
      (calculate_hard_match_score jd resume lib vec).2.experience_score * (1 / 10) := rfl
  refine ⟨?_, ?_, ?_, ?_, ?_, ?_, ?_, ?_, ?_, ?_⟩
  · rw [hh, hs, he, hc, hx]; linarith
  · rw [hh, hs, he, hc, hx]; linarith
  · rw [hs]; exact hs0
  · rw [hs]; exact hs1
  · rw [he]; exact he0
  · rw [he]; exact he1
  · rw [hc]; exact hc0
  · rw [hc]; exact hc1
  · rw [hx]; exact hx0
  · rw [hx]; exact hx1

/-- C6: for every catalog, job-description text and resume text, the
classification sets are disjoint and the found sets are contained in
their classification sets. -/
theorem skill_sets_invariants (jd resume : Str) (lib : List (Str × List Str)) :
    (extract_skills_from_jd jd lib).1 ∩ (extract_skills_from_jd jd lib).2 = ∅ ∧
    (check_skills_in_resume resume (extract_skills_from_jd jd lib).1
      (extract_skills_from_jd jd lib).2 lib).1 ⊆ (extract_skills_from_jd jd lib).1 ∧
    (check_skills_in_resume resume (extract_skills_from_jd jd lib).1
      (extract_skills_from_jd jd lib).2 lib).2 ⊆ (extract_skills_from_jd jd lib).2 := by
  refine ⟨?_, Finset.filter_subset _ _, Finset.filter_subset _ _⟩
  apply Finset.eq_empty_iff_forall_not_mem.mpr
  intro y hy
  rw [Finset.mem_inter] at hy
  obtain ⟨h1, h2⟩ := hy
  rw [mem_extract_must] at h1
  rw [mem_extract_good] at h2
  rw [h1.1] at h2
  exact absurd h2.1 (by simp)

/-- C7: `check_education_requirement` returns a value in {0, 100}: 100
when no JD requirement term occurs in the lowercased JD text, otherwise
100 exactly when some JD requirement term is a substring of some degree
keyword extracted from the resume, else 0; in particular a JD
mentioning "bachelor" against a resume with no degree keyword scores 0. -/
theorem education_score_spec (jd resume : Str) :
    (check_education_requirement jd (extract_education resume) = 0 ∨
     check_education_requirement jd (extract_education resume) = 100) ∧
    (jdEducationReqs jd = [] →
      check_education_requirement jd (extract_education resume) = 100) ∧
    (jdEducationReqs jd ≠ [] →
      (check_education_requirement jd (extract_education resume) = 100 ↔
        ∃ req ∈ jdEducationReqs jd, ∃ edu ∈ extract_education resume,
          substrB req edu = true)) ∧
    (substrB (("bachelor").toList) (lowerStr jd) = true →
      extract_education resume = [] →
      check_education_requirement jd (extract_education resume) = 0) := by
  refine ⟨check_education_eq_or jd (extract_education resume), ?_, ?_, ?_⟩
  · intro h
    unfold check_education_requirement
    simp [h]
  · intro hne
    have hemp : (jdEducationReqs jd).isEmpty = false := by
      revert hne; cases jdEducationReqs jd <;> simp
    unfold check_education_requirement
    rw [hemp]
    simp only [Bool.false_eq_true, if_false]
    by_cases ha : (jdEducationReqs jd).any
        (fun req => (extract_education resume).any (fun edu => substrB req edu)) = true
    · rw [if_pos ha]
      exact iff_of_true rfl (by simpa [List.any_eq_true] using ha)
    · rw [if_neg ha]
      refine iff_of_false (by norm_num) ?_
      intro hex
      exact ha (by simpa [List.any_eq_true] using hex)
  · intro hb hedu
    have hmem : ("bachelor").toList ∈ jdEducationReqs jd := by
      unfold jdEducationReqs
      rw [List.mem_filter]
      exact ⟨by decide, hb⟩
    have hemp : (jdEducationReqs jd).isEmpty = false := by
      revert hmem; cases jdEducationReqs jd <;> simp
    unfold check_education_requirement
    rw [hemp, hedu]
    simp

/-- Witness for C7: a JD mentioning "bachelor" against a resume with no
degree keyword scores 0. -/
theorem education_score_spec_witness :
    check_education_requirement (("Needs a bachelor now.").toList)
      (extract_education (("I know python only.").toList)) = 0 :=
  (education_score_spec (("Needs a bachelor now.").toList)
    (("I know python only.").toList)).2.2.2 (by decide) (by decide)

/-- C8: `check_experience_requirement` computes the required years as
the maximum numeric match of the two year-patterns over the lowercased
JD text (0 when none), returns 100 when that requirement is 0 or when
the resume years meet it, and `(resumeYears/requiredYears)*100`
otherwise (never negative, at most 100); `extract_experience` likewise
returns the maximum matched number or 0; in particular a required 5
years against a resume stating 3 years scores 60. -/
theorem experience_score_spec (jd resume : Str) (ry : ℚ) (hry : 0 ≤ ry) :
    requiredYears jd =
      maxOr0 (findNums yearsLit (lowerStr jd) ++ findNums yrsLit (lowerStr jd)) ∧
    check_experience_requirement jd ry =
      (if requiredYears jd = 0 then 100
       else if ry ≥ requiredYears jd then 100 else ry / requiredYears jd * 100) ∧
    0 ≤ check_experience_requirement jd ry ∧
    check_experience_requirement jd ry ≤ 100 ∧
    extract_experience resume =
      maxOr0 (findNums yearsLit (lowerStr resume) ++ findNums yrsLit (lowerStr resume)) ∧
    check_experience_requirement (("Requires 5 years experience.").toList)
      (extract_experience (("3 years of experience.").toList)) = 60 := by
  have hnn : ∀ v ∈ findNums yearsLit (lowerStr jd) ++ findNums yrsLit (lowerStr jd),
      0 ≤ v := by
    intro v hv
    rcases List.mem_append.mp hv with h | h
    · exact findNums_nonneg _ _ v h
    · exact findNums_nonneg _ _ v h
  refine ⟨foldl_max_eq_maxOr0 _ hnn, ?_, (check_exp_bounds jd ry hry).1,
    (check_exp_bounds jd ry hry).2, rfl, by decide⟩
  unfold check_experience_requirement
  split
  · rfl
  · split
    · rfl
    · rename_i hne hge
      have hpos : 0 < requiredYears jd :=
        lt_of_le_of_ne (requiredYears_nonneg jd) (Ne.symm hne)
      have h0 : 0 ≤ ry / requiredYears jd * 100 := by positivity
      exact max_eq_right h0

/-- Witness for C8: required 5 years against a resume stating 3 years
scores 60. -/
theorem experience_score_spec_witness :
    check_experience_requirement (("Requires 5 years experience.").toList)
      (extract_experience (("3 years of experience.").toList)) = 60 :=
  (experience_score_spec (("Requires 5 years experience.").toList)
    (("3 years of experience.").toList) 3 (by norm_num)).2.2.2.2.2

/-- C9: the caller combines the hard and semantic scores as
`final = hardScore * 0.45 + semanticScore * 0.55` and classifies the
result so that `final ≥ 70` is HIGH FIT, `40 ≤ final < 70` is MEDIUM
FIT, and `final < 40` is LOW FIT. -/
theorem final_score_verdict_spec (h s f : ℚ) :
    final_score h s = h * (45 / 100) + s * (55 / 100) ∧
    (verdict f = Verdict.highFit ↔ 70 ≤ f) ∧
    (verdict f = Verdict.mediumFit ↔ 40 ≤ f ∧ f < 70) ∧
    (verdict f = Verdict.lowFit ↔ f < 40) := by
  refine ⟨rfl, ?_, ?_, ?_⟩
  · unfold verdict
    split
    · exact iff_of_true rfl (by assumption)
    · split
      · exact iff_of_false (by decide) (by assumption)
      · exact iff_of_false (by decide) (by assumption)
  · unfold verdict
    split
    · rename_i h1
      exact iff_of_false (by decide) (fun hc => absurd h1 (not_le.mpr hc.2))
    · split
      · rename_i h1 h2
        exact iff_of_true rfl ⟨h2, lt_of_not_ge h1⟩
      · rename_i h1 h2
        exact iff_of_false (by decide) (fun hc => h2 hc.1)
  · unfold verdict
    split
    · rename_i h1
      exact iff_of_false (by decide)
        (fun hc => absurd h1 (not_le.mpr (hc.trans_le (by norm_num))))
    · split
      · rename_i h1 h2
        exact iff_of_false (by decide) (fun hc => absurd h2 (not_le.mpr hc))
      · rename_i h1 h2
        exact iff_of_true rfl (lt_of_not_ge h2)

/-- C10: for fixed requirement sets, `calculate_skill_score` is
monotone in the found sets. -/
theorem skill_score_monotone (fm fm' fg fg' mh gh : Finset Str)
    (h1 : fm ⊆ fm') (h2 : fm' ⊆ mh) (h3 : fg ⊆ fg') (h4 : fg' ⊆ gh) :
    calculate_skill_score fm fg mh gh ≤ calculate_skill_score fm' fg' mh gh := by
  have key : ∀ a a' b : Finset Str, a ⊆ a' →
      (if b.Nonempty then (a.card : ℚ) / (b.card : ℚ) else 1) ≤
      (if b.Nonempty then ((a'.card : ℚ)) / (b.card : ℚ) else 1) := by
    intro a a' b haa
    by_cases hb : b.Nonempty
    · simp only [hb, if_true]
      have hpos : (0 : ℚ) < b.card := by exact_mod_cast Finset.card_pos.mpr hb
      have hcard : (a.card : ℚ) ≤ (a'.card : ℚ) := by
        exact_mod_cast Finset.card_le_card haa
      exact (div_le_div_iff_of_pos_right hpos).mpr hcard
    · simp [hb]
  have k1 := key fm fm' mh h1
  have k2 := key fg fg' gh h3
  unfold calculate_skill_score
  nlinarith

/-- Witness for C10 at concrete sets. -/
theorem skill_score_monotone_witness :
    calculate_skill_score {("a").toList} ∅ {("a").toList, ("b").toList} {("c").toList} ≤
      calculate_skill_score {("a").toList, ("b").toList} {("c").toList}
        {("a").toList, ("b").toList} {("c").toList} :=
  skill_score_monotone _ _ _ _ _ _ (by decide) (by decide) (by decide) (by decide)

end ResumeScanner
